import Mathlib

/-!
Verification of the faster_chat retrieval pipeline
(`chat/embeddings_service.py`, `chat/openai_service.py`, `chat/rag_service.py`)
against its natural-language specification.

External collaborators (the OpenAI embedding/chat providers, the Pinecone
index client, the Django ORM) are modelled as function parameters; every
definition below mirrors the corresponding Python function statement by
statement.  Vector components are rationals (the float arithmetic itself is
irrelevant to the properties proved; where the cosine-similarity value
matters it is abstracted as a `sim` parameter that may fail, modelling numpy
shape errors).
-/

namespace FasterChat

/-! ## Python string primitives used by the services
`str.strip` / `str.upper` / the `in` substring test, modelled character-wise
(ASCII whitespace, as in the texts involved). -/

/-- Whitespace recognised by Python's default `str.strip`. -/
def isPyWs (c : Char) : Bool :=
  c == ' ' || c == '\t' || c == '\n' || c == '\r' || c == '\x0b' || c == '\x0c'

/-- Character-list version of `str.upper`. -/
def toUpperChars (l : List Char) : List Char := l.map Char.toUpper

/-- Character-list version of `str.strip` (both ends). -/
def stripChars (l : List Char) : List Char :=
  ((l.dropWhile isPyWs).reverse.dropWhile isPyWs).reverse

/-- Python `s.upper()`. -/
def pyUpper (s : String) : String := ⟨toUpperChars s.data⟩

/-- Python `s.strip()`. -/
def pyStrip (s : String) : String := ⟨stripChars s.data⟩

/-- Helper for the substring test: does `l` start with `pat`? -/
def isPrefixOfChars : List Char → List Char → Bool
  | [], _ => true
  | _ :: _, [] => false
  | p :: ps, c :: cs => p == c && isPrefixOfChars ps cs

/-- Does `l` contain `pat` as a contiguous subsequence? -/
def containsSeq (pat : List Char) : List Char → Bool
  | [] => decide (pat = [])
  | c :: rest => isPrefixOfChars pat (c :: rest) || containsSeq pat rest

/-- Python `pat in s`. -/
def containsSub (s pat : String) : Bool := containsSeq pat.data s.data

/-! ## EmbeddingsService (`chat/embeddings_service.py`)

The OpenAI embeddings endpoint is a parameter
`provider : String → Except String Embedding` (`.error` models a raised
exception).  The module-level `_embedding_cache` dict is modelled as an
association list in insertion order: a Python dict preserves insertion
order, `next(iter(d))` is its first (oldest-inserted) key, and new keys are
appended at the end. -/

/-- An embedding vector (numpy float array, modelled over ℚ). -/
abbrev Embedding := List ℚ

/-- The `_embedding_cache` global: text → vector, in insertion order. -/
abbrev EmbedCache := List (String × Embedding)

/-- Python `text in _embedding_cache` / `_embedding_cache[text]`. -/
def cacheLookup (cache : EmbedCache) (text : String) : Option Embedding :=
  (cache.find? (fun p => p.1 == text)).map (fun p => p.2)

/-- The constant `self.embedding_dimensions = 1536` (text-embedding-3-small). -/
def embeddingDimensions : ℕ := 1536

/-- EmbeddingsService._get_embedding (lines 162-191): cache hit returns the
cached vector; on a miss the provider is called; on success, if the cache
holds more than 1000 entries its first (oldest-inserted) key is popped, then
the new entry is inserted; on provider failure the error is caught and a
zero vector of length 1536 is returned, with no cache write and no flag.
Returns the vector together with the updated cache state. -/
def getEmbedding (provider : String → Except String Embedding)
    (cache : EmbedCache) (text : String) : Embedding × EmbedCache :=
  match cacheLookup cache text with
  | some v => (v, cache)
  | none =>
    match provider text with
    | .ok emb =>
      let cache' := if cache.length > 1000 then cache.tail else cache
      (emb, cache' ++ [(text, emb)])
    | .error _ => (List.replicate embeddingDimensions 0, cache)

/-- EmbeddingsService.create_embedding (lines 193-203): calls the provider
and returns its vector; a provider exception propagates (there is no
try/except on this path). -/
def createEmbedding (provider : String → Except String Embedding)
    (text : String) : Except String Embedding :=
  provider text

/-- A `documents.models.DocumentChunk` row together with the fields of its
parent document that `store_document_chunk` reads. -/
structure ChunkRec where
  docId : ℕ
  chunkNumber : ℕ
  content : String
  docTitle : String
  docFileType : String
deriving DecidableEq

/-- Metadata attached to a Pinecone vector by `store_document_chunk`. -/
structure IndexMetadata where
  documentId : String
  chunkNumber : ℕ
  documentTitle : String
  documentType : String
deriving DecidableEq

/-- One vector record as sent to `index.upsert`. -/
structure IndexRecord where
  id : String
  values : Embedding
  metadata : IndexMetadata
deriving DecidableEq

/-- The chunk id doc_<document id>_chunk_<chunk number> built by the
f-string at line 208 of the source. -/
def chunkVectorId (c : ChunkRec) : String :=
  "doc_" ++ toString c.docId ++ "_chunk_" ++ toString c.chunkNumber

/-- EmbeddingsService.store_document_chunk (lines 205-232): builds the chunk
id, encodes the chunk text via `create_embedding` (whose failure propagates,
aborting before any index write), and sends the resulting vector unchanged,
with the metadata, to the external index client; the index is modelled as
the list of records the client has received.  Returns the chunk id and the
updated index.  (The final ORM write `chunk.embedding_id = chunk_id;
chunk.save(...)` only records the returned id and is elided.) -/
def storeDocumentChunk (provider : String → Except String Embedding)
    (index : List IndexRecord) (chunk : ChunkRec) :
    Except String (String × List IndexRecord) :=
  let chunkId := chunkVectorId chunk
  match createEmbedding provider chunk.content with
  | .error e => .error e
  | .ok embedding =>
    .ok (chunkId,
      index ++ [⟨chunkId, embedding,
        ⟨toString chunk.docId, chunk.chunkNumber, chunk.docTitle, chunk.docFileType⟩⟩])

/-- One match returned by the external `index.query` call: its similarity
score and the metadata fields that `similarity_search` reads back.  The
`document_id` metadata value is a string that Python parses with `int(...)`;
`parsedDocId = none` models a missing key or an unparsable value
(`KeyError` / `ValueError`, both caught and skipped). -/
structure MatchRec where
  score : ℚ
  parsedDocId : Option ℕ
  matchChunkNumber : Option ℕ
deriving DecidableEq

/-- The per-match body of `similarity_search`'s loop: look the chunk up in
the database by (document_id, chunk_number); a missing chunk or bad metadata
is skipped (`continue`). -/
def collectMatches (db : List ChunkRec) (ms : List MatchRec) :
    List (ChunkRec × ℚ) :=
  ms.foldl
    (fun acc m =>
      match m.parsedDocId, m.matchChunkNumber with
      | some did, some cn =>
        match db.find? (fun c => c.docId == did && c.chunkNumber == cn) with
        | some chunk => acc ++ [(chunk, m.score)]
        | none => acc
      | _, _ => acc)
    []

/-- EmbeddingsService.similarity_search (lines 234-267): encodes the query
with `_get_embedding` (zero-vector fallback included) and passes the
resulting vector unchanged to the external index query
`pineconeQuery : vector → top_k → matches`, then resolves each match to a
database chunk.  Returns the (chunk, score) list and the updated cache. -/
def similaritySearch (provider : String → Except String Embedding)
    (cache : EmbedCache) (pineconeQuery : Embedding → ℕ → List MatchRec)
    (db : List ChunkRec) (query : String) (topK : ℕ) :
    List (ChunkRec × ℚ) × EmbedCache :=
  let (queryEmbedding, cache') := getEmbedding provider cache query
  (collectMatches db (pineconeQuery queryEmbedding topK), cache')

/-! ## get_relevant_context (`chat/embeddings_service.py`, lines 282-326)

The cosine-similarity expression
`np.dot(q, c) / (np.linalg.norm(q) * np.linalg.norm(c))` is real-valued
(square roots), so it is abstracted as a parameter
`sim : Embedding → Embedding → Except String ℚ`; `.error` models the numpy
exceptions this line can raise (e.g. a shape mismatch between stored
vectors).  Every property proved below holds for every `sim`. -/

/-- One value of the `self.documents` JSON store: a dict read with
`doc.get('source', 'Unknown')` and `doc.get('content', '')`. -/
structure DocEntry where
  source : Option String
  content : Option String
deriving DecidableEq

/-- The `self.documents` store, chunk id → entry. -/
abbrev DocStore := List (String × DocEntry)

/-- Python `chunk_id in self.documents` / `self.documents[chunk_id]`. -/
def docLookup (docs : DocStore) (k : String) : Option DocEntry :=
  (docs.find? (fun p => p.1 == k)).map (fun p => p.2)

/-- A (chunk id, similarity score) pair, one item of `similarities`. -/
abbrev ChunkScore := String × ℚ

/-- The sort order used by
`sorted(similarities.items(), key=lambda x: x[1], reverse=True)`:
descending similarity score. -/
def scoreGE (a b : ChunkScore) : Prop := b.2 ≤ a.2

instance : DecidableRel scoreGE := fun a b => inferInstanceAs (Decidable (b.2 ≤ a.2))

instance : IsTotal ChunkScore scoreGE := ⟨fun a b => le_total b.2 a.2⟩

instance : IsTrans ChunkScore scoreGE := ⟨fun _ _ _ h h' => le_trans h' h⟩

/-- The `similarities` dict (lines 296-302): one score per stored chunk, in
the store's insertion order; a numpy failure anywhere aborts the whole
computation (the enclosing `try`). -/
def similarityList (sim : Embedding → Embedding → Except String ℚ)
    (store : List (String × Embedding)) (queryEmbedding : Embedding) :
    Except String (List ChunkScore) :=
  match store with
  | [] => .ok []
  | p :: rest =>
    match sim queryEmbedding p.2 with
    | .error e => .error e
    | .ok s =>
      match similarityList sim rest queryEmbedding with
      | .error e => .error e
      | .ok sims => .ok ((p.1, s) :: sims)

/-- Lines 304-308: sort by score descending (Python `sorted` is a stable
sort, which `List.insertionSort` with the non-strict order `scoreGE`
reproduces), keep the first `max_chunks`, then keep only the entries with
`sim >= similarity_threshold`. -/
def topChunks (sims : List ChunkScore) (maxChunks : ℕ) (threshold : ℚ) :
    List ChunkScore :=
  (((List.insertionSort scoreGE sims).take maxChunks)).filter
    (fun p => decide (threshold ≤ p.2))

/-- The block contributed by one surviving chunk (lines 312-316): entries
missing from the documents store are skipped. -/
def blockFor (docs : DocStore) (p : ChunkScore) : String :=
  match docLookup docs p.1 with
  | some d =>
    "Document: " ++ d.source.getD "Unknown" ++ "\n" ++
      "Content: " ++ d.content.getD "" ++ "\n\n"
  | none => ""

/-- Lines 310-316: `context` accumulated with `+=` over `top_chunks`. -/
def formatContext (docs : DocStore) (chunks : List ChunkScore) : String :=
  chunks.foldl (fun acc p => acc ++ blockFor docs p) ""

/-- EmbeddingsService.get_relevant_context (lines 282-326): empty vector
store or empty documents store short-circuits to `""`; otherwise the query
is encoded with `_get_embedding`, every stored chunk is scored, the scored
list is sorted/truncated/filtered by `topChunks` and formatted; any
exception inside the `try` block is caught and turned into `""` (line
324-326).  Returns the context string and the updated embedding cache. -/
def getRelevantContext (provider : String → Except String Embedding)
    (cache : EmbedCache) (sim : Embedding → Embedding → Except String ℚ)
    (store : List (String × Embedding)) (docs : DocStore) (query : String)
    (maxChunks : ℕ) (threshold : ℚ) : String × EmbedCache :=
  if store.isEmpty || docs.isEmpty then ("", cache)
  else
    let (queryEmbedding, cache') := getEmbedding provider cache query
    match similarityList sim store queryEmbedding with
    | .ok sims => (formatContext docs (topChunks sims maxChunks threshold), cache')
    | .error _ => ("", cache')

/-! ## OpenAIService (`chat/openai_service.py`)

The chat-completions endpoint is a parameter
`chat : List Msg → Except String String` returning the content of the first
choice (`.error` models a raised exception); temperature and max-token
settings do not affect any property below and are elided.  Retrieval is
passed in as `getContext : query → max_chunks → context`, mirroring the
`self.embeddings_service.get_relevant_context` calls.  Quote characters
inside the prompt literals are elided; no theorem inspects them. -/

/-- One chat message dict `{"role": ..., "content": ...}`. -/
structure Msg where
  role : String
  content : String
deriving DecidableEq

/-- The system prompt spliced in by `generate_response` (lines 84-93),
ending with the retrieved context. -/
def docSystemPrompt : String :=
  "You are a helpful AI assistant that answers questions based on provided documents. " ++
    "Use the following information from documents to answer the question, and cite the source document. " ++
    "If the information is not in the documents, say that you dont have information on this topic in " ++
    "your documents and provide a general answer. Here are the relevant document sections:\n\n"

/-- Lines 95-100: replace the first message with role `"system"` by the new
system message, or insert it at position 0 if none exists.  The operation is
applied to `messages_copy` only. -/
def spliceSystemMessage (msgs : List Msg) (newSys : Msg) : List Msg :=
  match msgs.findIdx? (fun m => m.role == "system") with
  | some i => msgs.set i newSys
  | none => newSys :: msgs

/-- OpenAIService.generate_response (lines 67-116).  `messages.copy()` makes
an independent list, so all splicing happens on the copy and the caller's
list is untouched; the pair returned is (response text, caller's messages
list after the call).  A non-empty `query` with a non-empty retrieved
context (fetched with the default `max_chunks=3`) augments the system
message; the provider's answer is stripped; any exception is caught and
turned into the text `"Error generating response: ..."`. -/
def generateResponseFull (getContext : String → ℕ → String)
    (chat : List Msg → Except String String) (messages : List Msg)
    (query : String) : String × List Msg :=
  let messagesCopy := messages
  let messagesCopy :=
    if query ≠ "" then
      let context := getContext query 3
      if context ≠ "" then
        spliceSystemMessage messagesCopy ⟨"system", docSystemPrompt ++ context⟩
      else messagesCopy
    else messagesCopy
  (match chat messagesCopy with
    | .ok r => pyStrip r
    | .error e => "Error generating response: " ++ e,
   messages)

/-- The response text of `generate_response` alone. -/
def generateResponse (getContext : String → ℕ → String)
    (chat : List Msg → Except String String) (messages : List Msg)
    (query : String) : String :=
  (generateResponseFull getContext chat messages query).1

/-- The evaluator system prompt of `is_answer_in_documents` (lines 128-137). -/
def groundingSystemPrompt : String :=
  "You are an AI evaluator. Your job is to determine whether the provided context " ++
    "contains enough information to answer the given question. Respond with YES " ++
    "if the context contains information to answer the question at least partially, " ++
    "or NO if the context does not contain relevant information to answer the question."

/-- The two-message classification request of `is_answer_in_documents`
(lines 128-142). -/
def groundingMessages (query context : String) : List Msg :=
  [⟨"system", groundingSystemPrompt⟩,
   ⟨"user",
     "Question: " ++ query ++ "\n\nContext:\n" ++ context ++
       "\n\nDoes the context contain information to answer the question? Answer with YES or NO."⟩]

/-- OpenAIService.is_answer_in_documents (lines 118-152): retrieves context
with `max_chunks=2`; empty context returns `false` at once; otherwise the
provider is asked and the stripped, uppercased answer is tested for the
substring `"YES"`.  The second component counts the chat-provider calls
made; a provider exception propagates (`.error`). -/
def isAnswerInDocuments (getContext : String → ℕ → String)
    (chat : List Msg → Except String String) (query : String) :
    Except String Bool × ℕ :=
  let context := getContext query 2
  if context = "" then (.ok false, 0)
  else
    match chat (groundingMessages query context) with
    | .ok resp => (.ok (containsSub (pyUpper (pyStrip resp)) "YES"), 1)
    | .error e => (.error e, 1)

/-! ## RAGService (`chat/rag_service.py`)

`_get_conversation_messages` only assembles the history list and is passed
in as `messages`; the two provider handles are separate parameters since a
request uses the grounding call and the generation call independently. -/

/-- RAGService.ask (lines 17-61): decide groundedness once, then generate —
with the query (hence with document context) only when grounded — and
return `(response, has_document_answer)`.  A grounding-provider exception
propagates out of `ask` (there is no try/except around it). -/
def ask (getContext : String → ℕ → String)
    (groundChat genChat : List Msg → Except String String)
    (messages : List Msg) (query : String) : Except String (String × Bool) :=
  match (isAnswerInDocuments getContext groundChat query).1 with
  | .error e => .error e
  | .ok has =>
    .ok (generateResponse getContext genChat messages (if has then query else ""), has)

/-! ## Support definitions for the verification -/

/-- The spec's `assemble_context` output shape for comparison with the
source's accumulating loop: the per-entry blocks (in the source's actual
block format `blockFor`), concatenated in list order. -/
def concatBlocks (docs : DocStore) : List ChunkScore → String
  | [] => ""
  | p :: rest => blockFor docs p ++ concatBlocks docs rest

/-- A family of pairwise-distinct cache keys (distinct lengths). -/
def keyOf (n : ℕ) : String := ⟨List.replicate n 'a'⟩

/-- The cache state after a sequence of `_get_embedding` calls. -/
def runEmbeds (provider : String → Except String Embedding)
    (texts : List String) (cache : EmbedCache) : EmbedCache :=
  texts.foldl (fun c t => (getEmbedding provider c t).2) cache

/-! ## Theorems -/

/-- The `similarities` dict has exactly one entry per stored chunk. -/
theorem similarityList_length (sim : Embedding → Embedding → Except String ℚ)
    (store : List (String × Embedding)) (qe : Embedding) (sims : List ChunkScore)
    (h : similarityList sim store qe = Except.ok sims) : sims.length = store.length := by
  induction store generalizing sims with
  | nil =>
    simp only [similarityList] at h
    cases h
    rfl
  | cons p rest ih =>
    simp only [similarityList] at h
    cases hs : sim qe p.2 with
    | error e => rw [hs] at h; cases h
    | ok s =>
      rw [hs] at h
      cases hr : similarityList sim rest qe with
      | error e => rw [hr] at h; cases h
      | ok sims' =>
        rw [hr] at h
        cases h
        simp [ih sims' hr]

/-- C1: `get_relevant_context` scores every stored chunk, ranks the scored
list by similarity descending, keeps at most `max_chunks` entries, then
discards the entries with score strictly below the threshold (keeping
`score >= threshold`) while preserving the order; the surviving list has
length at most `max_chunks` and is sorted by score descending.  (`topChunks`
is lines 304-308 of `embeddings_service.py`; the last conjunct records that
it is exactly sort-take-filter in that order.) -/
theorem c1_retrieval_rank_truncate_filter
    (sim : Embedding → Embedding → Except String ℚ)
    (store : List (String × Embedding)) (qe : Embedding)
    (maxChunks : ℕ) (threshold : ℚ) (sims : List ChunkScore)
    (h : similarityList sim store qe = Except.ok sims) :
    sims.length = store.length ∧
    (topChunks sims maxChunks threshold).length ≤ maxChunks ∧
    List.Sorted scoreGE (topChunks sims maxChunks threshold) ∧
    (∀ p ∈ topChunks sims maxChunks threshold, threshold ≤ p.2) ∧
    topChunks sims maxChunks threshold
      = ((List.insertionSort scoreGE sims).take maxChunks).filter
          (fun p => decide (threshold ≤ p.2)) := by
  refine ⟨similarityList_length sim store qe sims h, ?_, ?_, ?_, rfl⟩
  · exact le_trans (List.length_filter_le _ _) (List.length_take_le _ _)
  · exact List.Pairwise.sublist
      ((List.filter_sublist _).trans (List.take_sublist _ _))
      (List.sorted_insertionSort scoreGE sims)
  · intro p hp
    exact of_decide_eq_true (List.mem_filter.mp hp).2

/-- Witness for C1 at a concrete store of two chunks with `top_k = 1`. -/
theorem c1_witness :
    (topChunks [("c1", (1 : ℚ)), ("c2", (2 : ℚ))] 1 0).length ≤ 1 ∧
    List.Sorted scoreGE (topChunks [("c1", (1 : ℚ)), ("c2", (2 : ℚ))] 1 0) ∧
    ∀ p ∈ topChunks [("c1", (1 : ℚ)), ("c2", (2 : ℚ))] 1 0, (0 : ℚ) ≤ p.2 := by
  have h := c1_retrieval_rank_truncate_filter
    (fun _ c => .ok (c.headI)) [("c1", [1]), ("c2", [2])] [1] 1 0
    [("c1", 1), ("c2", 2)] (by rfl)
  exact ⟨h.2.1, h.2.2.1, h.2.2.2.1⟩

/-- C2: when the assembled retrieval context is empty,
`is_answer_in_documents` returns false at once and makes zero
generation-provider calls. -/
theorem c2_empty_context_short_circuit
    (getContext : String → ℕ → String) (chat : List Msg → Except String String)
    (query : String) (h : getContext query 2 = "") :
    isAnswerInDocuments getContext chat query = (Except.ok false, 0) := by
  simp [isAnswerInDocuments, h]

/-- Witness for C2: a retriever that finds nothing short-circuits even
though the provider would answer YES. -/
theorem c2_witness :
    isAnswerInDocuments (fun _ _ => "") (fun _ => Except.ok "YES") "q"
      = (Except.ok false, 0) :=
  c2_empty_context_short_circuit (fun _ _ => "") (fun _ => Except.ok "YES") "q" rfl

/-- C10: `generate_response` splices the document-context system message
into a copy of the caller's messages list (`messages.copy()`), so after the
call the caller's list is unchanged — same length, same elements, same
order. -/
theorem c10_messages_unchanged (getContext : String → ℕ → String)
    (chat : List Msg → Except String String) (messages : List Msg)
    (query : String) :
    (generateResponseFull getContext chat messages query).2 = messages := rfl

/-- C5 counterexample: a grounded request (`has_document_answer = true`)
whose generation call fails returns the user-visible error text together
with `used_documents = true` — the flag is not reset to false by the
failure, contradicting the claim. -/
theorem c5_counterexample :
    ask (fun _ _ => "ctx") (fun _ => Except.ok "YES") (fun _ => Except.error "boom")
        [] "q"
      = Except.ok ("Error generating response: boom", true) := by rfl

/-- C5 as amended: when generation fails, `ask` returns the plain-text
error string (no exception escapes the generation call), and the
`used_documents` flag equals the grounding decision made before generation —
it is not forced to false. -/
theorem c5_amended_generation_failure
    (getContext : String → ℕ → String)
    (groundChat genChat : List Msg → Except String String)
    (messages : List Msg) (query : String) (has : Bool) (e : String)
    (hg : (isAnswerInDocuments getContext groundChat query).1 = Except.ok has)
    (hfail : ∀ m, genChat m = Except.error e) :
    ask getContext groundChat genChat messages query
      = Except.ok ("Error generating response: " ++ e, has) := by
  have hgen : ∀ (q : String),
      generateResponse getContext genChat messages q
        = "Error generating response: " ++ e := by
    intro q
    simp only [generateResponse, generateResponseFull, hfail]
  unfold ask
  rw [hg]
  simp only [hgen]

/-- Witness for C5's amended theorem with a grounded query and a failing
generator. -/
theorem c5_witness :
    ask (fun _ _ => "ctx") (fun _ => Except.ok "YES") (fun _ => Except.error "x")
        [] "q"
      = Except.ok ("Error generating response: " ++ "x", true) :=
  c5_amended_generation_failure (fun _ _ => "ctx") (fun _ => Except.ok "YES")
    (fun _ => Except.error "x") [] "q" true "x" (by rfl) (fun _ => rfl)

/-- C6 counterexample: upserting a 3072-length vector through
`store_document_chunk` against the 1536-dimension index succeeds and stores
the vector unchanged — no `DimensionMismatchError` is raised anywhere in the
repository (the identifier does not exist in the code). -/
theorem c6_counterexample :
    (List.replicate 3072 (1 : ℚ)).length ≠ embeddingDimensions ∧
    storeDocumentChunk (fun _ => Except.ok (List.replicate 3072 (1 : ℚ))) []
        ⟨7, 0, "text", "T", "pdf"⟩
      = Except.ok ("doc_7_chunk_0",
          [⟨"doc_7_chunk_0", List.replicate 3072 (1 : ℚ), ⟨"7", 0, "T", "pdf"⟩⟩]) := by
  constructor
  · rw [List.length_replicate]
    decide
  · rfl

/-- C6 as amended: `store_document_chunk` and `similarity_search` perform no
dimension validation at all — whatever vector the embedding path produces is
forwarded unchanged (never truncated or padded) to the external index
client's upsert/query; any rejection of a mismatched length is left to the
remote service. -/
theorem c6_amended_no_dimension_check
    (provider : String → Except String Embedding) (index : List IndexRecord)
    (chunk : ChunkRec) (emb : Embedding)
    (hok : provider chunk.content = Except.ok emb) :
    storeDocumentChunk provider index chunk
      = Except.ok (chunkVectorId chunk,
          index ++ [⟨chunkVectorId chunk, emb,
            ⟨toString chunk.docId, chunk.chunkNumber, chunk.docTitle,
              chunk.docFileType⟩⟩]) ∧
    ∀ (cache : EmbedCache) (pq : Embedding → ℕ → List MatchRec)
      (db : List ChunkRec) (q : String) (k : ℕ),
      similaritySearch provider cache pq db q k
        = (collectMatches db (pq (getEmbedding provider cache q).1 k),
            (getEmbedding provider cache q).2) := by
  constructor
  · simp [storeDocumentChunk, createEmbedding, hok]
  · intro cache pq db q k
    rfl

/-- Witness for C6's amended theorem: an over-long vector flows through
upsert unchanged. -/
theorem c6_witness :
    storeDocumentChunk (fun _ => Except.ok (List.replicate 3072 (2 : ℚ))) []
        ⟨1, 2, "c", "T", "txt"⟩
      = Except.ok (chunkVectorId ⟨1, 2, "c", "T", "txt"⟩,
          [] ++ [⟨chunkVectorId ⟨1, 2, "c", "T", "txt"⟩,
            List.replicate 3072 (2 : ℚ), ⟨toString 1, 2, "T", "txt"⟩⟩]) :=
  (c6_amended_no_dimension_check (fun _ => Except.ok (List.replicate 3072 (2 : ℚ)))
    [] ⟨1, 2, "c", "T", "txt"⟩ (List.replicate 3072 (2 : ℚ)) rfl).1

/-- C4 counterexample: on provider failure the query-time path
`_get_embedding` returns the bare zero vector with no flag of any kind — its
result is indistinguishable from the result of a successful call whose
embedding happens to be the zero vector, contradicting the claim that the
degraded result is flagged. -/
theorem c4_counterexample :
    (getEmbedding (fun _ => Except.error "rate limited") [] "q").1
      = (getEmbedding (fun _ => Except.ok (List.replicate embeddingDimensions 0))
          [] "q").1 := by rfl

/-- C4 as amended: the index-write path (`create_embedding`, used by
`store_document_chunk`) propagates the provider error and writes nothing to
the index, while the query-time path `_get_embedding` swallows the failure
and returns an unflagged zero vector of length 1536 (with no cache write). -/
theorem c4_amended_error_paths
    (provider : String → Except String Embedding) (index : List IndexRecord)
    (chunk : ChunkRec) (cache : EmbedCache) (text : String) (e e' : String)
    (h1 : provider chunk.content = Except.error e)
    (h2 : cacheLookup cache text = none)
    (h3 : provider text = Except.error e') :
    storeDocumentChunk provider index chunk = Except.error e ∧
    getEmbedding provider cache text
      = (List.replicate embeddingDimensions 0, cache) := by
  constructor
  · simp [storeDocumentChunk, createEmbedding, h1]
  · simp [getEmbedding, h2, h3]

/-- Witness for C4's amended theorem with an always-failing provider. -/
theorem c4_witness :
    storeDocumentChunk (fun _ => Except.error "down") [] ⟨1, 0, "c", "T", "txt"⟩
        = Except.error "down" ∧
    getEmbedding (fun _ => Except.error "down") [] "q"
      = (List.replicate embeddingDimensions 0, []) :=
  c4_amended_error_paths (fun _ => Except.error "down") [] ⟨1, 0, "c", "T", "txt"⟩
    [] "q" "down" "down" rfl rfl rfl

/-- C9 counterexample: with a non-empty vector store and documents store, an
exception inside the similarity computation (here a numpy shape error) is
caught by `get_relevant_context` and converted into the empty context
string — a normal-looking value indistinguishable from a genuine empty
retrieval, contradicting the claim that lower layers never catch-and-hide. -/
theorem c9_counterexample :
    (getRelevantContext (fun _ => Except.ok [1]) []
        (fun _ _ => Except.error "ValueError: shapes not aligned")
        [("c1", [1, 2])] [("c1", ⟨some "A", some "hello"⟩)] "q" 3 (7 / 10)).1
      = "" := by rfl

/-- C9 as amended: `get_relevant_context` catches every internal error and
returns the empty string, exactly the value a genuinely empty vector store
produces; the Retriever therefore does convert internal exceptions into a
normal-looking empty context (and `_get_embedding` likewise swallows
provider failure, see the C4 theorems). -/
theorem c9_amended_catch_and_hide
    (provider : String → Except String Embedding) (cache : EmbedCache)
    (sim : Embedding → Embedding → Except String ℚ)
    (store : List (String × Embedding)) (docs : DocStore) (query : String)
    (maxChunks : ℕ) (threshold : ℚ) (e : String)
    (h1 : store.isEmpty = false) (h2 : docs.isEmpty = false)
    (h3 : similarityList sim store (getEmbedding provider cache query).1
        = Except.error e) :
    (getRelevantContext provider cache sim store docs query maxChunks threshold).1
        = "" ∧
    ∀ (provider2 : String → Except String Embedding) (cache2 : EmbedCache)
      (sim2 : Embedding → Embedding → Except String ℚ) (docs2 : DocStore)
      (query2 : String) (k2 : ℕ) (t2 : ℚ),
      (getRelevantContext provider2 cache2 sim2 [] docs2 query2 k2 t2).1 = "" := by
  constructor
  · simp [getRelevantContext, h1, h2, h3]
  · intro provider2 cache2 sim2 docs2 query2 k2 t2
    simp [getRelevantContext]

/-- Witness for C9's amended theorem: a failing similarity computation on a
one-chunk store yields the same empty context as an empty store. -/
theorem c9_witness :
    (getRelevantContext (fun _ => Except.ok [1]) []
        (fun _ _ => Except.error "ValueError") [("c1", [1, 2])]
        [("c1", ⟨some "A", some "hello"⟩)] "q" 3 (7 / 10)).1 = "" ∧
    (getRelevantContext (fun _ => Except.ok [1]) []
        (fun _ _ => Except.error "ValueError") []
        [("c1", ⟨some "A", some "hello"⟩)] "q" 3 (7 / 10)).1 = "" := by
  have h := c9_amended_catch_and_hide (fun _ => Except.ok [1]) []
    (fun _ _ => Except.error "ValueError") [("c1", [1, 2])]
    [("c1", ⟨some "A", some "hello"⟩)] "q" 3 (7 / 10) "ValueError"
    rfl rfl (by rfl)
  exact ⟨h.1, h.2 (fun _ => Except.ok [1]) [] (fun _ _ => Except.error "ValueError")
    [("c1", ⟨some "A", some "hello"⟩)] "q" 3 (7 / 10)⟩

/-- The accumulating `context +=` loop equals block concatenation. -/
theorem formatContext_acc (docs : DocStore) (l : List ChunkScore) (a : String) :
    l.foldl (fun acc p => acc ++ blockFor docs p) a = a ++ concatBlocks docs l := by
  induction l generalizing a with
  | nil => simp [concatBlocks, String.append_empty]
  | cons p rest ih => simp [concatBlocks, ih, String.append_assoc]

/-- Thus `formatContext` is the concatenation of the per-entry blocks in order. -/
theorem formatContext_eq (docs : DocStore) (chunks : List ChunkScore) :
    formatContext docs chunks = concatBlocks docs chunks := by
  rw [formatContext, formatContext_acc]
  exact String.empty_append _

/-- C8 counterexample: the emitted block is
`"Document: <source>\nContent: <content>\n\n"`, not the claimed
`"--- From document: <title> ---\n<chunk text>\n"`: at a one-chunk store the
assembled context differs from the claimed block. -/
theorem c8_counterexample :
    (getRelevantContext (fun _ => Except.ok [1]) [] (fun _ _ => Except.ok 1)
        [("c1", [1])] [("c1", ⟨some "A", some "hello"⟩)] "q" 3 0).1
      = "Document: A\nContent: hello\n\n" ∧
    ("Document: A\nContent: hello\n\n" : String)
      ≠ "--- From document: A ---\nhello\n" := by
  exact ⟨by rfl, by decide⟩

/-- C8 as amended: for each surviving entry found in the documents store
(entries missing from it contribute nothing), context assembly emits the
labeled block `"Document: <source>\nContent: <content>\n\n"` — source
resolved from the documents metadata with default `"Unknown"`, content with
default `""` — concatenated in score-descending order; an empty surviving
list yields the empty string, a normal result. -/
theorem c8_amended_block_format
    (provider : String → Except String Embedding) (cache : EmbedCache)
    (sim : Embedding → Embedding → Except String ℚ)
    (store : List (String × Embedding)) (docs : DocStore) (query : String)
    (maxChunks : ℕ) (threshold : ℚ) (sims : List ChunkScore)
    (h1 : store.isEmpty = false) (h2 : docs.isEmpty = false)
    (h3 : similarityList sim store (getEmbedding provider cache query).1
        = Except.ok sims) :
    (getRelevantContext provider cache sim store docs query maxChunks threshold).1
      = concatBlocks docs (topChunks sims maxChunks threshold) ∧
    concatBlocks docs [] = "" ∧
    ∀ (p : ChunkScore) (ps : List ChunkScore),
      concatBlocks docs (p :: ps) = blockFor docs p ++ concatBlocks docs ps := by
  refine ⟨?_, rfl, fun p ps => rfl⟩
  simp [getRelevantContext, h1, h2, h3, formatContext_eq]

/-- Witness for C8's amended theorem at a concrete two-chunk store. -/
theorem c8_witness :
    (getRelevantContext (fun _ => Except.ok [1]) [] (fun _ c => Except.ok c.headI)
        [("c1", [1]), ("c2", [2])]
        [("c1", ⟨some "A", some "x"⟩), ("c2", ⟨none, none⟩)] "q" 3 0).1
      = concatBlocks [("c1", ⟨some "A", some "x"⟩), ("c2", ⟨none, none⟩)]
          (topChunks [("c1", 1), ("c2", 2)] 3 0) :=
  (c8_amended_block_format (fun _ => Except.ok [1]) [] (fun _ c => Except.ok c.headI)
    [("c1", [1]), ("c2", [2])]
    [("c1", ⟨some "A", some "x"⟩), ("c2", ⟨none, none⟩)] "q" 3 0
    [("c1", 1), ("c2", 2)] rfl rfl (by rfl)).1

/-- The cache keys are distinct: `keyOf` is injective. -/
theorem keyOf_injective : Function.Injective keyOf := by
  intro a b h
  have hl : (keyOf a).data.length = (keyOf b).data.length := by rw [h]
  simpa [keyOf, List.length_replicate] using hl

/-- No all-'a' key equals the probe key "b". -/
theorem keyOf_ne_b (n : ℕ) : keyOf n ≠ "b" := by
  intro h
  have hd : List.replicate n 'a' = ['b'] := congrArg String.data h
  cases n with
  | zero => simp at hd
  | succ m =>
    rw [List.replicate_succ] at hd
    simp at hd

/-- A fresh insert into a cache at or below 1000 entries appends the new
entry and evicts nothing. -/
theorem getEmbedding_fresh_small
    (provider : String → Except String Embedding) (cache : EmbedCache)
    (text : String) (emb : Embedding)
    (h1 : cacheLookup cache text = none) (h2 : cache.length ≤ 1000)
    (h3 : provider text = Except.ok emb) :
    (getEmbedding provider cache text).2 = cache ++ [(text, emb)] := by
  simp only [getEmbedding, h1, h3]
  rw [if_neg (by omega)]

/-- Every key in the cache after a `_get_embedding` call was either already
present or is the text just encoded. -/
theorem getEmbedding_keys
    (provider : String → Except String Embedding) (cache : EmbedCache)
    (text : String) :
    ∀ p ∈ (getEmbedding provider cache text).2, p ∈ cache ∨ p.1 = text := by
  intro p hp
  unfold getEmbedding at hp
  cases hc : cacheLookup cache text with
  | some v => rw [hc] at hp; exact Or.inl hp
  | none =>
    rw [hc] at hp
    cases hprov : provider text with
    | error e => rw [hprov] at hp; exact Or.inl hp
    | ok emb =>
      rw [hprov] at hp
      simp only [List.mem_append] at hp
      rcases hp with hp | hp
      · by_cases hlen : cache.length > 1000
        · rw [if_pos hlen] at hp
          exact Or.inl (List.mem_of_mem_tail hp)
        · rw [if_neg hlen] at hp
          exact Or.inl hp
      · simp only [List.mem_singleton] at hp
        subst hp
        exact Or.inr rfl

/-- Feeding `n ≤ 1001` pairwise-distinct fresh texts into an empty cache
grows it to exactly `n` entries, every key being one of the texts. -/
theorem runEmbeds_spec : ∀ n : ℕ, n ≤ 1001 →
    (runEmbeds (fun _ => Except.ok []) ((List.range n).map keyOf) []).length = n ∧
    ∀ p ∈ runEmbeds (fun _ => Except.ok []) ((List.range n).map keyOf) [],
      ∃ m, m < n ∧ p.1 = keyOf m := by
  intro n
  induction n with
  | zero =>
    intro _
    exact ⟨rfl, by simp [runEmbeds]⟩
  | succ k ih =>
    intro hk1
    obtain ⟨hlen, hmem⟩ := ih (Nat.le_of_succ_le hk1)
    have hstep : runEmbeds (fun _ => Except.ok []) ((List.range (k + 1)).map keyOf) []
        = (getEmbedding (fun _ => Except.ok [])
            (runEmbeds (fun _ => Except.ok []) ((List.range k).map keyOf) [])
            (keyOf k)).2 := by
      rw [List.range_succ, List.map_append, runEmbeds, List.foldl_append]
      rfl
    have hfresh : cacheLookup
        (runEmbeds (fun _ => Except.ok []) ((List.range k).map keyOf) [])
        (keyOf k) = none := by
      have hfind : (runEmbeds (fun _ => Except.ok []) ((List.range k).map keyOf)
          []).find? (fun p => p.1 == keyOf k) = none := by
        rw [List.find?_eq_none]
        intro p hp hbeq
        obtain ⟨m, hm, hpk⟩ := hmem p hp
        have : keyOf m = keyOf k := by rw [← hpk]; exact eq_of_beq hbeq
        exact absurd (keyOf_injective this) (Nat.ne_of_lt hm)
      simp [cacheLookup, hfind]
    have hins := getEmbedding_fresh_small (fun _ => Except.ok [])
      (runEmbeds (fun _ => Except.ok []) ((List.range k).map keyOf) [])
      (keyOf k) [] hfresh (by omega) rfl
    constructor
    · rw [hstep, hins, List.length_append, hlen]
      rfl
    · intro p hp
      rw [hstep, hins] at hp
      simp only [List.mem_append, List.mem_singleton] at hp
      rcases hp with hp | hp
      · obtain ⟨m, hm, hpk⟩ := hmem p hp
        exact ⟨m, Nat.lt_succ_of_lt hm, hpk⟩
      · subst hp
        exact ⟨k, Nat.lt_succ_self k, rfl⟩

/-- C7 counterexample: after 1001 `_get_embedding` calls on distinct texts
the cache holds 1001 entries — the overflow check `len(...) > 1000` runs
before the insert, so the fixed capacity of 1000 claimed by the spec is
exceeded by one. -/
theorem c7_counterexample :
    1000 < (runEmbeds (fun _ => Except.ok [])
      ((List.range 1001).map keyOf) []).length := by
  rw [(runEmbeds_spec 1001 (le_refl 1001)).1]
  decide

/-- C7 as amended: after every `_get_embedding` call the cache holds at most
1001 entries (the capacity check `> 1000` runs before the insert), and when
an insert happens at the 1001-entry bound the evicted entry is
deterministically the oldest-inserted key (the dict's first key via
`next(iter(...))`), never an arbitrary or random one. -/
theorem c7_amended_capacity_and_eviction
    (provider : String → Except String Embedding) (cache : EmbedCache)
    (text : String) (hlen : cache.length ≤ 1001) :
    ((getEmbedding provider cache text).2).length ≤ 1001 ∧
    ∀ emb : Embedding, cache.length = 1001 → cacheLookup cache text = none →
      provider text = Except.ok emb →
      (getEmbedding provider cache text).2 = cache.tail ++ [(text, emb)] := by
  constructor
  · unfold getEmbedding
    cases hc : cacheLookup cache text with
    | some v => simpa using hlen
    | none =>
      cases hp : provider text with
      | error e => simpa using hlen
      | ok emb =>
        simp only []
        by_cases h : cache.length > 1000
        · rw [if_pos h]
          simp only [List.length_append, List.length_tail, List.length_singleton]
          omega
        · rw [if_neg h]
          simp only [List.length_append, List.length_singleton]
          omega
  · intro emb h1 h2 h3
    simp only [getEmbedding, h2, h3]
    rw [if_pos (by omega)]

/-- Witness for C7's amended theorem: a full 1001-entry cache receiving a
fresh text stays at 1001 entries and evicts exactly its first entry. -/
theorem c7_witness :
    ((getEmbedding (fun _ => Except.ok ([] : Embedding))
        ((List.range 1001).map (fun n => (keyOf n, ([] : Embedding)))) "b").2).length
      ≤ 1001 ∧
    (getEmbedding (fun _ => Except.ok ([] : Embedding))
        ((List.range 1001).map (fun n => (keyOf n, ([] : Embedding)))) "b").2
      = ((List.range 1001).map (fun n => (keyOf n, ([] : Embedding)))).tail
          ++ [("b", [])] := by
  have hlookup : cacheLookup
      ((List.range 1001).map (fun n => (keyOf n, ([] : Embedding)))) "b" = none := by
    have hfind : ((List.range 1001).map
        (fun n => (keyOf n, ([] : Embedding)))).find? (fun p => p.1 == "b") = none := by
      rw [List.find?_eq_none]
      intro p hp hbeq
      simp only [List.mem_map] at hp
      obtain ⟨n, _, rfl⟩ := hp
      exact keyOf_ne_b n (eq_of_beq hbeq)
    simp [cacheLookup, hfind]
  have h := c7_amended_capacity_and_eviction (fun _ => Except.ok ([] : Embedding))
    ((List.range 1001).map (fun n => (keyOf n, ([] : Embedding)))) "b" (by simp)
  exact ⟨h.1, h.2 [] (by simp) hlookup rfl⟩

/-- The empty pattern is contained in every string. -/
theorem containsSeq_nil_pat (l : List Char) : containsSeq [] l = true := by
  cases l <;> simp [containsSeq, isPrefixOfChars]

/-- A non-whitespace-headed pattern never starts at a whitespace character. -/
theorem isPrefixOfChars_ws_head (p : Char) (ps : List Char) (w : Char)
    (l : List Char) (hp : isPyWs p = false) (hw : isPyWs w = true) :
    isPrefixOfChars (p :: ps) (w :: l) = false := by
  have hpw : (p == w) = false := by
    rw [beq_eq_false_iff_ne]
    intro he
    rw [he, hw] at hp
    cases hp
  simp only [isPrefixOfChars, hpw, Bool.false_and]

/-- Appending trailing whitespace does not let a whitespace-free pattern
start matching: the prefix test ignores the whitespace tail. -/
theorem isPrefixOfChars_append_ws (pat : List Char) :
    ∀ (x tws : List Char), (∀ c ∈ pat, isPyWs c = false) →
      (∀ c ∈ tws, isPyWs c = true) →
      isPrefixOfChars pat (x ++ tws) = isPrefixOfChars pat x := by
  induction pat with
  | nil => intro x tws _ _; simp [isPrefixOfChars]
  | cons p ps ih =>
    intro x tws hpat htws
    cases x with
    | nil =>
      rw [List.nil_append]
      cases tws with
      | nil => rfl
      | cons w t' =>
        rw [isPrefixOfChars_ws_head p ps w t'
          (hpat p (List.mem_cons_self p ps)) (htws w (List.mem_cons_self w t'))]
        rfl
    | cons a x' =>
      simp only [List.cons_append, isPrefixOfChars, List.append_eq]
      rw [ih x' tws (fun c hc => hpat c (List.mem_cons_of_mem p hc)) htws]

/-- Dropping one leading whitespace character does not change containment of
a whitespace-free non-empty pattern. -/
theorem containsSeq_ws_cons (pat : List Char)
    (hpat : ∀ c ∈ pat, isPyWs c = false) (w : Char) (l : List Char)
    (hw : isPyWs w = true) (hne : pat ≠ []) :
    containsSeq pat (w :: l) = containsSeq pat l := by
  cases pat with
  | nil => exact absurd rfl hne
  | cons p ps =>
    simp only [containsSeq]
    rw [isPrefixOfChars_ws_head p ps w l (hpat p (List.mem_cons_self p ps)) hw,
      Bool.false_or]

/-- Leading whitespace does not change containment. -/
theorem containsSeq_ws_prepend (pat : List Char)
    (hpat : ∀ c ∈ pat, isPyWs c = false) :
    ∀ (lws m : List Char), (∀ c ∈ lws, isPyWs c = true) →
      containsSeq pat (lws ++ m) = containsSeq pat m := by
  intro lws
  induction lws with
  | nil => intro m _; rfl
  | cons w l ih =>
    intro m hl
    by_cases hpe : pat = []
    · subst hpe
      rw [containsSeq_nil_pat, containsSeq_nil_pat]
    · rw [List.cons_append,
        containsSeq_ws_cons pat hpat w (l ++ m) (hl w (List.mem_cons_self w l)) hpe,
        ih m (fun c hc => hl c (List.mem_cons_of_mem w hc))]

/-- A whitespace-free non-empty pattern is not contained in pure whitespace. -/
theorem containsSeq_nonempty_ws (pat : List Char)
    (hpat : ∀ c ∈ pat, isPyWs c = false) (hne : pat ≠ []) :
    ∀ tws : List Char, (∀ c ∈ tws, isPyWs c = true) →
      containsSeq pat tws = false := by
  intro tws
  induction tws with
  | nil =>
    intro _
    cases pat with
    | nil => exact absurd rfl hne
    | cons p ps => rfl
  | cons w t' ih =>
    intro h
    rw [containsSeq_ws_cons pat hpat w t' (h w (List.mem_cons_self w t')) hne]
    exact ih (fun c hc => h c (List.mem_cons_of_mem w hc))

/-- Trailing whitespace does not change containment. -/
theorem containsSeq_ws_append (pat : List Char)
    (hpat : ∀ c ∈ pat, isPyWs c = false) :
    ∀ (m tws : List Char), (∀ c ∈ tws, isPyWs c = true) →
      containsSeq pat (m ++ tws) = containsSeq pat m := by
  intro m
  induction m with
  | nil =>
    intro tws htws
    by_cases hpe : pat = []
    · subst hpe
      rw [containsSeq_nil_pat, containsSeq_nil_pat]
    · rw [List.nil_append, containsSeq_nonempty_ws pat hpat hpe tws htws]
      cases hp : pat with
      | nil => exact absurd hp hpe
      | cons p ps => rfl
  | cons a m' ih =>
    intro tws htws
    simp only [List.cons_append, containsSeq, List.append_eq]
    rw [← List.cons_append, isPrefixOfChars_append_ws pat (a :: m') tws hpat htws,
      ih tws htws]

/-- Every list splits as leading whitespace, its stripped core, and trailing
whitespace. -/
theorem stripChars_decomp (l : List Char) :
    ∃ lws tws, l = lws ++ (stripChars l ++ tws) ∧
      (∀ c ∈ lws, isPyWs c = true) ∧ (∀ c ∈ tws, isPyWs c = true) := by
  refine ⟨l.takeWhile isPyWs, ((l.dropWhile isPyWs).reverse.takeWhile isPyWs).reverse,
    ?_, ?_, ?_⟩
  · have h1 : l.takeWhile isPyWs ++ l.dropWhile isPyWs = l :=
      List.takeWhile_append_dropWhile isPyWs l
    have h2 : (l.dropWhile isPyWs).reverse.takeWhile isPyWs
        ++ (l.dropWhile isPyWs).reverse.dropWhile isPyWs = (l.dropWhile isPyWs).reverse :=
      List.takeWhile_append_dropWhile isPyWs (l.dropWhile isPyWs).reverse
    have h3 : stripChars l ++ ((l.dropWhile isPyWs).reverse.takeWhile isPyWs).reverse
        = l.dropWhile isPyWs := by
      have h2' := congrArg List.reverse h2
      rw [List.reverse_append, List.reverse_reverse] at h2'
      unfold stripChars
      exact h2'
    rw [h3]
    exact h1.symm
  · intro c hc
    exact List.mem_takeWhile_imp hc
  · intro c hc
    rw [List.mem_reverse] at hc
    exact List.mem_takeWhile_imp hc

/-- Python's `.upper()` fixes whitespace characters. -/
theorem toUpper_pyWs (c : Char) (h : isPyWs c = true) : c.toUpper = c := by
  simp only [isPyWs, Bool.or_eq_true, beq_iff_eq] at h
  rcases h with ((((h | h) | h) | h) | h) | h <;> subst h <;> decide

/-- The `"YES" in response.strip().upper()` test of the source equals the
claim's `"YES" in response.upper()` test: stripping cannot create or destroy
an occurrence of the whitespace-free token. -/
theorem contains_yes_strip_upper (s : String) :
    containsSub (pyUpper (pyStrip s)) "YES" = containsSub (pyUpper s) "YES" := by
  obtain ⟨lws, tws, hdecomp, hlws, htws⟩ := stripChars_decomp s.data
  have hyes : ∀ c ∈ ("YES".data : List Char), isPyWs c = false := by decide
  have hmaplws : ∀ c ∈ lws.map Char.toUpper, isPyWs c = true := by
    intro c hc
    obtain ⟨w, hw, rfl⟩ := List.mem_map.mp hc
    rw [toUpper_pyWs w (hlws w hw)]
    exact hlws w hw
  have hmaptws : ∀ c ∈ tws.map Char.toUpper, isPyWs c = true := by
    intro c hc
    obtain ⟨w, hw, rfl⟩ := List.mem_map.mp hc
    rw [toUpper_pyWs w (htws w hw)]
    exact htws w hw
  show containsSeq "YES".data (toUpperChars (stripChars s.data))
      = containsSeq "YES".data (toUpperChars s.data)
  conv_rhs => rw [hdecomp]
  simp only [toUpperChars, List.map_append]
  rw [containsSeq_ws_prepend "YES".data hyes (lws.map Char.toUpper) _ hmaplws,
    containsSeq_ws_append "YES".data hyes ((stripChars s.data).map Char.toUpper)
      (tws.map Char.toUpper) hmaptws]

/-- C3: with non-empty context and a successful provider response,
`is_answer_in_documents` returns true exactly when the response text
contains the token "YES" case-insensitively (i.e. the uppercased response
contains the substring "YES"); anything else yields false. -/
theorem c3_yes_token_decision (getContext : String → ℕ → String)
    (chat : List Msg → Except String String) (query resp : String)
    (hctx : getContext query 2 ≠ "")
    (hchat : chat (groundingMessages query (getContext query 2)) = Except.ok resp) :
    (isAnswerInDocuments getContext chat query).1 = Except.ok true
      ↔ containsSub (pyUpper resp) "YES" = true := by
  simp only [isAnswerInDocuments, if_neg hctx, hchat]
  rw [contains_yes_strip_upper]
  constructor
  · intro h
    injection h
  · intro h
    rw [h]

/-- Witness for C3: the response " yes " (lowercase, padded) makes the
router return true. -/
theorem c3_witness :
    (isAnswerInDocuments (fun _ _ => "ctx") (fun _ => Except.ok " yes ") "q").1
      = Except.ok true :=
  (c3_yes_token_decision (fun _ _ => "ctx") (fun _ => Except.ok " yes ") "q" " yes "
    (by decide) rfl).mpr (by decide)

end FasterChat
